import Mathlib

/-!
Shallow embedding of the mfvmarket1 quote-updater scripts.

The repository holds five near-duplicate variants of one Node script
(`scripts/update.mjs` plus the four unnamed variants part_000 .. part_003).
Each variant fetches quotes from keyless HTTP sources (Stooq daily CSV,
Stooq batch CSV, Yahoo v7 JSON, CoinGecko JSON), normalises them into a
common record shape, concatenates the per-adapter lists and writes a JSON
payload `{ updatedAt, items }`.

Network and filesystem effects are modelled by passing the HTTP response
bodies (or their absence, for a failed request) and the success/failure of
the `writeFile` calls as explicit inputs; everything downstream of those
effects is translated directly from the JavaScript.

JavaScript numbers are modelled as `ℚ` (all the arithmetic in these scripts
is exact: subtraction, division and multiplication by 100 of parsed decimal
values); `null`/`undefined` of a numeric field is `Option.none`.  `Number()`
parsing is modelled on the decimal-literal fragment (optional sign, digits,
optional fraction, optional exponent, empty string ↦ 0); hexadecimal,
octal and binary literals — which these CSV/JSON sources never produce —
are not modelled and parse to `none`, and `"Infinity"` parses to `none`,
which agrees with the scripts because every parse is immediately filtered
through `Number.isFinite`.
-/

namespace MfvMarket

/-- One decimal digit character: models rendering the digit `n % 10`. -/
def digitChar (n : Nat) : Char := Char.ofNat (48 + n % 10)

/-- Numeric value of a digit character (`c.charCodeAt(0) - 48`). -/
def digitVal (c : Char) : Nat := c.toNat - 48

/-- Two-digit zero-padded rendering, as `Intl.DateTimeFormat`'s "2-digit". -/
def pad2L (n : Nat) : List Char := [digitChar (n / 10), digitChar n]

/-- Four-digit rendering of a (four-digit) year, as Intl's "numeric" year. -/
def pad4L (n : Nat) : List Char :=
  [digitChar (n / 1000), digitChar (n / 100), digitChar (n / 10), digitChar n]

/-- JavaScript `s.split(sep)` for a one-character separator: scan left to
right, cut at each occurrence of `sep`.  `acc` holds the (reversed)
characters of the current segment. -/
def splitOnChar (sep : Char) : List Char → List Char → List (List Char)
  | [], acc => [acc.reverse]
  | c :: rest, acc =>
    if c = sep then acc.reverse :: splitOnChar sep rest []
    else splitOnChar sep rest (c :: acc)

/-- JavaScript `s.split(sep)` on a `String`, one-character separator. -/
def jsSplitChar (sep : Char) (s : String) : List String :=
  (splitOnChar sep s.toList []).map String.mk

/-- JavaScript `s.split(", ")` — the only two-character separator the
scripts use (in `toISTISOString`): cut at each occurrence of a comma
immediately followed by a space. -/
def splitOnCommaSpace : List Char → List Char → List (List Char)
  | [], acc => [acc.reverse]
  | [c], acc => [(c :: acc).reverse]
  | c :: c2 :: rest, acc =>
    if c = ',' ∧ c2 = ' ' then acc.reverse :: splitOnCommaSpace rest []
    else splitOnCommaSpace (c2 :: rest) (c :: acc)

/-- JavaScript `text.split(/\r?\n/)`: cut at each `"\r\n"` or `"\n"`. -/
def splitLinesAux : List Char → List Char → List (List Char)
  | [], acc => [acc.reverse]
  | '\r' :: '\n' :: rest, acc => acc.reverse :: splitLinesAux rest []
  | '\n' :: rest, acc => acc.reverse :: splitLinesAux rest []
  | c :: rest, acc => splitLinesAux rest (c :: acc)

/-- JavaScript `text.split(/\r?\n/)` on a `String`. -/
def splitLinesJs (s : String) : List String :=
  (splitLinesAux s.toList []).map String.mk

/-- JavaScript `s.trim()`: strip whitespace from both ends. -/
def jsTrim (s : String) : String :=
  String.mk
    ((((s.toList.dropWhile Char.isWhitespace).reverse.dropWhile
        Char.isWhitespace).reverse))

/-- JavaScript `s.toLowerCase()` (ASCII, which is all these symbols use). -/
def jsToLower (s : String) : String := String.mk (s.toList.map Char.toLower)

/-- JavaScript `s.toUpperCase()` (ASCII). -/
def jsToUpper (s : String) : String := String.mk (s.toList.map Char.toUpper)

/-- Digits-to-value accumulator for the decimal parser. -/
def digitsToNat (ds : List Char) : Nat :=
  ds.foldl (fun a c => a * 10 + (c.toNat - 48)) 0

/-- Parse an unsigned decimal mantissa: `digits`, `digits.digits`,
`digits.` or `.digits`; returns the value and the unconsumed rest. -/
def parseUnsigned (cs : List Char) : Option (ℚ × List Char) :=
  let ip := cs.takeWhile Char.isDigit
  let r1 := cs.dropWhile Char.isDigit
  match r1 with
  | '.' :: r2 =>
    let fp := r2.takeWhile Char.isDigit
    let r3 := r2.dropWhile Char.isDigit
    if ip.isEmpty && fp.isEmpty then none
    else some (((digitsToNat ip : ℚ) + (digitsToNat fp : ℚ) / (10 : ℚ) ^ fp.length), r3)
  | _ => if ip.isEmpty then none else some ((digitsToNat ip : ℚ), r1)

/-- Parse an optional trailing exponent `[eE][+-]?digits` and apply it;
any other trailing garbage makes the whole literal NaN (`none`). -/
def applyExponent (q : ℚ) (cs : List Char) : Option ℚ :=
  match cs with
  | [] => some q
  | e :: r1 =>
    if e = 'e' ∨ e = 'E' then
      let (sgn, r2) : Int × List Char :=
        match r1 with
        | '+' :: t => (1, t)
        | '-' :: t => (-1, t)
        | _ => (1, r1)
      let ds := r2.takeWhile Char.isDigit
      let r3 := r2.dropWhile Char.isDigit
      if ds.isEmpty ∨ ¬ r3.isEmpty then none
      else some (q * (10 : ℚ) ^ (sgn * (digitsToNat ds : Int)))
    else none

/-- JavaScript `Number(s)` restricted to finite results, i.e. the composite
`Number.isFinite(Number(String(x).trim())) ? ... : null` used by every
variant's numeric helper.  The whitespace-trimmed empty string is `0`
(a JavaScript quirk the scripts inherit); an unparseable string is `none`. -/
def jsNumber (s : String) : Option ℚ :=
  match (jsTrim s).toList with
  | [] => some 0
  | cs =>
    let (sgn, cs1) : ℚ × List Char :=
      match cs with
      | '-' :: t => (-1, t)
      | '+' :: t => (1, t)
      | _ => (1, cs)
    match parseUnsigned cs1 with
    | none => none
    | some (v, rest) =>
      match applyExponent v rest with
      | none => none
      | some v2 => some (sgn * v2)

/-- The shared numeric helper (`n` in part_000, `safeNum` in part_001,
`num` in part_002): `x == null` gives `null`, otherwise
`Number(String(x).trim())` filtered through `Number.isFinite`. -/
def safeNum (x : Option String) : Option ℚ :=
  match x with
  | none => none
  | some s => jsNumber s

/-- part_003's `num`: first strip every character that is not a digit, a
dot or a minus sign (`String(x).replace(/[^0-9.\-]/g, "")`), then parse. -/
def stripNonNumeric (s : String) : String :=
  String.mk (s.toList.filter fun c => c.isDigit || c == '.' || c == '-')

/-- part_003's `num(x)`. -/
def num003 (x : Option String) : Option ℚ :=
  match x with
  | none => none
  | some s => jsNumber (stripNonNumeric s)

/-- JavaScript `a ?? b` on an optional numeric value. -/
def jsCoalesce (a : Option ℚ) (b : Option ℚ) : Option ℚ :=
  match a with
  | some v => some v
  | none => b

/-- JavaScript truthiness of an optional string: `undefined`/`null` and
`""` are falsy. -/
def jsTruthyStr (o : Option String) : Option String :=
  match o with
  | some s => if s = "" then none else some s
  | none => none

/-- JavaScript `a || b` where `a` is an optional string and `b` a string. -/
def jsOrStr (a : Option String) (b : String) : String :=
  match jsTruthyStr a with
  | some s => s
  | none => b

/-- JavaScript truthiness of an optional (finite) number: `undefined`,
`null` and `0` are falsy. -/
def jsTruthyNum (o : Option ℚ) : Bool :=
  match o with
  | some q => decide (q ≠ 0)
  | none => false

/-- The normalised quote record shared (up to field presence) by all
variants.  `price` is optional because part_002 can emit a record whose
close failed to parse (`null` price); `marketState` is optional because
part_002's records carry no such field. -/
structure Quote where
  symbol : String
  name : String
  price : Option ℚ
  change : ℚ
  changePercent : ℚ
  marketState : Option String
deriving DecidableEq, Repr

/-- One CoinGecko `simple/price` row: `{ usd, usd_24h_change }`, each field
possibly absent. -/
structure CgRow where
  usd : Option ℚ
  usd24hChange : Option ℚ
deriving DecidableEq, Repr

/-- One entry of the `COINGECKO` / `COINS` configuration tables. -/
structure Coin where
  id : String
  symbol : String
  name : String
deriving DecidableEq, Repr

/-- Result of one promise in a `Promise.allSettled` join. -/
inductive Settled (α : Type) where
  | fulfilled : α → Settled α
  | rejected : String → Settled α
deriving DecidableEq, Repr

/-- `Array.isArray(res.value) ? res.value : []` applied to a settled
adapter result: a rejected promise has `value === undefined`. -/
def Settled.valueOrNil : Settled (List Quote) → List Quote
  | .fulfilled l => l
  | .rejected _ => []

/-- The civil time fields handed back by
`Intl.DateTimeFormat("en-GB", { timeZone: "Asia/Kolkata", ... })`:
the wall-clock time in the fixed IST offset (+05:30, no DST). -/
structure IstFields where
  year : Nat
  month : Nat
  day : Nat
  hour : Nat
  minute : Nat
  second : Nat
deriving DecidableEq, Repr

/-- Intl's "en-GB" rendering with `hour12: false`:
`"dd/mm/yyyy, hh:mm:ss"` (day/month/... all 2-digit, year numeric). -/
def intlDateEnGB (d : IstFields) : List Char :=
  pad2L d.day ++ ['/'] ++ pad2L d.month ++ ['/'] ++ pad4L d.year

/-- The 24-hour time part of the Intl "en-GB" rendering. -/
def intlTime24 (d : IstFields) : List Char :=
  pad2L d.hour ++ [':'] ++ pad2L d.minute ++ [':'] ++ pad2L d.second

/-- The full Intl output consumed by `toISTISOString` in update.mjs,
part_000, part_001 and part_003. -/
def intlFormatEnGB24 (d : IstFields) : List Char :=
  intlDateEnGB d ++ [',', ' '] ++ intlTime24 d

/-- `toISTISOString` as written in update.mjs, part_000, part_001 and
part_003: format in IST, split `"dd/mm/yyyy, hh:mm:ss"` on `", "` and
`"/"`, and reassemble as `"yyyy-mm-ddThh:mm:ss+05:30"`. -/
def toISTISOString (d : IstFields) : String :=
  let ist := intlFormatEnGB24 d
  let parts := splitOnCommaSpace ist []
  let dmy := parts.getD 0 []
  let hms := parts.getD 1 []
  let dparts := splitOnChar '/' dmy []
  let dd := dparts.getD 0 []
  let mm := dparts.getD 1 []
  let yyyy := dparts.getD 2 []
  String.mk (yyyy ++ ['-'] ++ mm ++ ['-'] ++ dd ++ ['T'] ++ hms ++
    ['+', '0', '5', ':', '3', '0'])

/-- The run payload `{ updatedAt: toISTISOString(), items }` handed to
`JSON.stringify` by every variant's `main` (and by every catch handler,
with `items: []`). -/
structure Payload where
  updatedAt : String
  items : List Quote
deriving DecidableEq, Repr

/-- Minimal JSON document tree, used to state what `JSON.stringify`
produces for the payload. -/
inductive Json where
  | str : String → Json
  | num : ℚ → Json
  | null : Json
  | arr : List Json → Json
  | obj : List (String × Json) → Json

/-- The key list of a top-level JSON object. -/
def Json.topKeys : Json → List String
  | .obj kvs => kvs.map (fun kv => kv.1)
  | _ => []

/-- Value of a key of a top-level JSON object. -/
def Json.lookupKey : Json → String → Option Json
  | .obj kvs, k => kvs.lookup k
  | _, _ => none

/-- `JSON.stringify` image of one quote record (serialisation of a
JavaScript object: a `null` field serialises as JSON null, an absent
field is omitted). -/
def serializeQuote (q : Quote) : Json :=
  Json.obj ([("symbol", Json.str q.symbol), ("name", Json.str q.name),
    ("price", match q.price with | some p => Json.num p | none => Json.null),
    ("change", Json.num q.change),
    ("changePercent", Json.num q.changePercent)] ++
    (match q.marketState with
     | some m => [("marketState", Json.str m)]
     | none => []))

/-- `JSON.stringify(payload, null, 2)` image of the run payload: an object
with exactly the keys `updatedAt` and `items`, `items` always an array. -/
def serializePayload (p : Payload) : Json :=
  Json.obj [("updatedAt", Json.str p.updatedAt),
            ("items", Json.arr (p.items.map serializeQuote))]

/-- The payload written by every variant's catch handler:
`{ updatedAt: toISTISOString(), items: [] }`. -/
def catchPayload (now : IstFields) : Payload :=
  { updatedAt := toISTISOString now, items := [] }

/-- `lines` of a Stooq daily-CSV response after `text.trim().split(/\r?\n/)`
(shared verbatim by part_000, part_001 and part_002). -/
def stooqLines (text : String) : List String :=
  splitLinesJs (jsTrim text)

/-- `lines.slice(1).map(line => line.split(","))`. -/
def stooqRows (text : String) : List (List String) :=
  ((stooqLines text).drop 1).map (fun l => jsSplitChar ',' l)

/-- `const last = rows[rows.length - 1]`. -/
def stooqLastRow (text : String) : List String :=
  (stooqRows text).getLastD []

/-- `const prev = rows[rows.length - 2] || []`; with a single row the
JavaScript index is `-1`, reads `undefined` and falls back to `[]`. -/
def stooqPrevRow (text : String) : List String :=
  if 2 ≤ (stooqRows text).length then
    (stooqRows text).getD ((stooqRows text).length - 2) []
  else []

/-- `safeNum(last[4])` — the Close column of the latest day; an index past
the end of the row reads `undefined` and parses to `null`. -/
def stooqClose (text : String) : Option ℚ :=
  safeNum ((stooqLastRow text).get? 4)

/-- `safeNum(prev[4])` — the Close column of the previous day. -/
def stooqPrevClose (text : String) : Option ℚ :=
  safeNum ((stooqPrevRow text).get? 4)

namespace Part001

/-- part_001's `FRIENDLY` display-name table (all values non-empty, hence
truthy). -/
def FRIENDLY : List (String × String) :=
  [("^spx", "S&P 500"), ("^ndx", "NASDAQ 100"), ("^dji", "Dow Jones"),
   ("gc.f", "Gold"), ("cl.f", "Crude Oil"), ("si.f", "Silver"),
   ("aapl.us", "Apple"), ("msft.us", "Microsoft"),
   ("BTC-USD", "Bitcoin"), ("ETH-USD", "Ethereum")]

/-- `FRIENDLY[k]` property access. -/
def friendly (k : String) : Option String := FRIENDLY.lookup k

/-- part_001's `COINS` table. -/
def COINS : List Coin :=
  [{ id := "bitcoin", symbol := "BTC-USD", name := "Bitcoin" },
   { id := "ethereum", symbol := "ETH-USD", name := "Ethereum" }]

/-- part_001's `fetchStooqDaily(symbol)` (identical, modulo the friendly
table and log prefix, to part_000's).  `resp` is the HTTP response body,
`none` when the request did not return ok (`!r.ok` throws). -/
def fetchStooqDaily (symbol : String) (resp : Option String) :
    Except String Quote :=
  match resp with
  | none => .error ("Stooq " ++ symbol ++ " request failed")
  | some text =>
    if (stooqLines text).length < 2 then .error ("Stooq " ++ symbol ++ " empty")
    else if (stooqRows text).length = 0 then
      .error ("Stooq " ++ symbol ++ " no rows")
    else
      match stooqClose text with
      | none => .error ("Stooq " ++ symbol ++ " no close")
      | some close =>
        let change : ℚ :=
          match stooqPrevClose text with
          | some p => close - p
          | none => 0
        let changePercent : ℚ :=
          match stooqPrevClose text with
          | some p => if p ≠ 0 then change / p * 100 else 0
          | none => 0
        .ok { symbol := jsToLower symbol,
              name := jsOrStr (friendly (jsToLower symbol)) (jsToUpper symbol),
              price := some close,
              change := change,
              changePercent := changePercent,
              marketState := some "DAILY" }

/-- part_001's `fetchAllStooq(symbols)`: sequential loop, each symbol's
failure caught, logged as `[stooq skip] ...` and skipped; a fetched row is
pushed only if `row && row.price != null`.  Returns the emitted records
and the warning log lines. -/
def fetchAllStooq : List (String × Option String) → List Quote × List String
  | [] => ([], [])
  | (s, resp) :: rest =>
    let acc := fetchAllStooq rest
    match fetchStooqDaily s resp with
    | .ok row =>
      (if row.price ≠ none then row :: acc.1 else acc.1, acc.2)
    | .error msg => (acc.1, ("[stooq skip] " ++ s ++ ": " ++ msg) :: acc.2)

/-- part_001's `fetchCoinGecko(coins)` applied to the parsed JSON body `j`
(an association of coin id to row).  `safeNum` applied to a finite JSON
number is the identity, so `safeNum(row.usd)` is just `row.usd` and
`safeNum(row.usd_24h_change ?? 0) ?? 0` is `row.usd_24h_change ?? 0`. -/
def fetchCoinGecko (coins : List Coin) (j : List (String × CgRow)) :
    List Quote :=
  coins.filterMap fun c =>
    match j.lookup c.id with
    | none => none
    | some row =>
      some { symbol := c.symbol,
             name := c.name,
             price := row.usd,
             change := (jsCoalesce row.usd24hChange (some 0)).getD 0,
             changePercent := (jsCoalesce row.usd24hChange (some 0)).getD 0,
             marketState := some "CRYPTO" }

/-- part_001's `main` after the `Promise.allSettled` join.
`fetchAllStooq` catches every per-symbol error and therefore always
fulfills; `fetchCoinGecko` can reject (non-ok response), so its settled
result is an input.  Returns the payload handed to `writeFile` together
with the `console.warn` lines of the run (`main` itself logs no warning
for a rejected adapter). -/
def main (stooqInputs : List (String × Option String))
    (cg : Settled (List Quote)) (now : IstFields) : Payload × List String :=
  let stooq := fetchAllStooq stooqInputs
  let items := stooq.1 ++ cg.valueOrNil
  ({ updatedAt := toISTISOString now, items := items }, stooq.2)

end Part001

namespace Part002

/-- part_002's `FRIENDLY` table. -/
def FRIENDLY : List (String × String) :=
  [("^spx", "S&P 500"), ("^ndx", "NASDAQ 100"), ("^hsi", "Hang Seng"),
   ("^shc", "Shanghai Comp.")]

/-- `FRIENDLY[k]` property access. -/
def friendly (k : String) : Option String := FRIENDLY.lookup k

/-- part_002's `fetchStooqDaily(symbol)`.  Unlike part_000/part_001 it has
no `no rows` check, does NOT throw when the latest close fails to parse,
and builds the record with a possibly-null `price`; in
`close - prevClose` a null `close` coerces to `0` (JavaScript numeric
coercion of `null`).  Its records carry no `marketState` field. -/
def fetchStooqDaily (symbol : String) (resp : Option String) :
    Except String Quote :=
  match resp with
  | none => .error ("Stooq " ++ symbol ++ " request failed")
  | some text =>
    if (stooqLines text).length < 2 then .error ("Stooq " ++ symbol ++ " empty")
    else
      let close := stooqClose text
      let prevClose := stooqPrevClose text
      let change : ℚ :=
        match prevClose with
        | some p => close.getD 0 - p
        | none => 0
      let changePercent : ℚ :=
        match prevClose with
        | some p => if p ≠ 0 then change / p * 100 else 0
        | none => 0
      .ok { symbol := jsToLower symbol,
            name := jsOrStr (friendly (jsToLower symbol)) (jsToUpper symbol),
            price := close,
            change := change,
            changePercent := changePercent,
            marketState := none }

/-- part_002's `fetchAll(symbols)`: the push guard is only `if (row)` —
a returned record object is always truthy, so every successfully derived
record is pushed, price or no price. -/
def fetchAll : List (String × Option String) → List Quote × List String
  | [] => ([], [])
  | (s, resp) :: rest =>
    let acc := fetchAll rest
    match fetchStooqDaily s resp with
    | .ok row => (row :: acc.1, acc.2)
    | .error msg => (acc.1, ("[skip] " ++ s ++ ": " ++ msg) :: acc.2)

/-- Intl "en-GB" 12-hour clock value: 0 ↦ 12, 13 ↦ 1, ... -/
def hour12 (h : Nat) : Nat := if h % 12 = 0 then 12 else h % 12

/-- part_002's Intl format call uses `hour12: true`, so the formatted
string is `"dd/mm/yyyy, hh:mm:ss am"` or `"... pm"`. -/
def intlFormatEnGB12 (d : IstFields) : List Char :=
  intlDateEnGB d ++ [',', ' '] ++ pad2L (hour12 d.hour) ++ [':'] ++
    pad2L d.minute ++ [':'] ++ pad2L d.second ++ [' '] ++
    (if d.hour < 12 then ['a', 'm'] else ['p', 'm'])

/-- part_002's `toISTISOString`: splits the 12-hour Intl output and
returns `` `${dd}-${mm}-${yyyy}, ${hms}` `` — a day-first local string
with an am/pm tail and no timezone offset. -/
def toISTISOString (d : IstFields) : String :=
  let ist := intlFormatEnGB12 d
  let parts := splitOnCommaSpace ist []
  let dmy := parts.getD 0 []
  let hms := parts.getD 1 []
  let dparts := splitOnChar '/' dmy []
  let dd := dparts.getD 0 []
  let mm := dparts.getD 1 []
  let yyyy := dparts.getD 2 []
  String.mk (dd ++ ['-'] ++ mm ++ ['-'] ++ yyyy ++ [',', ' '] ++ hms)

/-- part_002's `main`: single adapter, payload from `fetchAll`'s list. -/
def main (stooqInputs : List (String × Option String)) (now : IstFields) :
    Payload × List String :=
  let res := fetchAll stooqInputs
  ({ updatedAt := toISTISOString now, items := res.1 }, res.2)

end Part002

namespace Part003

/-- part_003's `FRIENDLY` table. -/
def FRIENDLY : List (String × String) :=
  [("^spx", "S&P 500"), ("^ndx", "NASDAQ 100"), ("^dji", "Dow Jones"),
   ("gc.f", "Gold"), ("cl.f", "Crude Oil"), ("si.f", "Silver"),
   ("aapl.us", "Apple"), ("msft.us", "Microsoft"),
   ("BTC-USD", "Bitcoin"), ("ETH-USD", "Ethereum")]

/-- `FRIENDLY[k]` property access. -/
def friendly (k : String) : Option String := FRIENDLY.lookup k

/-- `header.indexOf(k)`: `none` models JavaScript's `-1`. -/
def idx (header : List String) (k : String) : Option Nat :=
  header.findIdx? (fun h => h == k)

/-- `cols[i]` where `i` may be the missing index: `cols[-1]` and an
out-of-range index both read `undefined`. -/
def cellAt (cols : List String) (i : Option Nat) : Option String :=
  match i with
  | some n => cols.get? n
  | none => none

/-- The trimmed, lower-cased header row of the batch CSV:
`lines.shift()?.split(",").map(h => h.trim().toLowerCase()) || []`. -/
def csvHeader (lines : List String) : List String :=
  (jsSplitChar ',' (lines.headD "")).map (fun h => jsToLower (jsTrim h))

/-- The `open` cell of one data line, parsed with part_003's `num`. -/
def csvOpen (header : List String) (line : String) : Option ℚ :=
  num003 (cellAt ((jsSplitChar ',' line).map jsTrim) (idx header "open"))

/-- The `close` cell of one data line, parsed with part_003's `num`. -/
def csvClose (header : List String) (line : String) : Option ℚ :=
  num003 (cellAt ((jsSplitChar ',' line).map jsTrim) (idx header "close"))

/-- The body of part_003's per-line loop in `fetchStooqCsv`: `continue`
(here `none`) when the close is unresolvable, otherwise the normalised
record with the open-vs-close derivation
`(open != null && open !== 0) ? ... : 0`. -/
def csvLineQuote (header : List String) (line : String) : Option Quote :=
  let cols := (jsSplitChar ',' line).map jsTrim
  let symRaw := jsToLower ((cellAt cols (idx header "symbol")).getD "")
  let name :=
    jsOrStr (friendly symRaw) (jsOrStr (cellAt cols (idx header "symbol")) symRaw)
  let openPx := csvOpen header line
  let close := csvClose header line
  match close with
  | none => none
  | some c =>
    let chg : ℚ :=
      match openPx with
      | some o => if o ≠ 0 then c - o else 0
      | none => 0
    let pct : ℚ :=
      match openPx with
      | some o => if o ≠ 0 then chg / o * 100 else 0
      | none => 0
    some { symbol := symRaw,
           name := name,
           price := some c,
           change := chg,
           changePercent := pct,
           marketState := some "REGULAR" }

/-- part_003's `fetchStooqCsv(symbols)` applied to the response body
(`none` models a non-ok response, which throws). -/
def fetchStooqCsv (resp : Option String) : Except String (List Quote) :=
  match resp with
  | none => .error "Stooq request failed"
  | some csv =>
    let lines := splitLinesJs (jsTrim csv)
    let header := csvHeader lines
    .ok ((lines.drop 1).filterMap (csvLineQuote header))

/-- part_003's `fetchCoinGecko(coins)`: same shape as part_001's but with
plain `Number(...)` conversions; `Number` of a finite JSON number is the
identity and `Number(row.usd)` of an absent field is NaN, serialised as
null, modelled as `none`. -/
def fetchCoinGecko (coins : List Coin) (j : List (String × CgRow)) :
    List Quote :=
  coins.filterMap fun c =>
    match j.lookup c.id with
    | none => none
    | some row =>
      some { symbol := c.symbol,
             name := c.name,
             price := row.usd,
             change := (jsCoalesce row.usd24hChange (some 0)).getD 0,
             changePercent := (jsCoalesce row.usd24hChange (some 0)).getD 0,
             marketState := some "CRYPTO" }

/-- part_003's `main` after the `Promise.allSettled` join: both adapters
enter as settled results, each contributing
`Array.isArray(r.value) ? r.value : []`; a rejected adapter is silently
replaced by `[]` (no warning is logged for it). -/
def main (stooq : Settled (List Quote)) (cg : Settled (List Quote))
    (now : IstFields) : Payload :=
  { updatedAt := toISTISOString now,
    items := stooq.valueOrNil ++ cg.valueOrNil }

end Part003

namespace UpdateMjs

/-- update.mjs's `FRIENDLY` table (Yahoo symbols). -/
def FRIENDLY : List (String × String) :=
  [("^NSEI", "NIFTY 50"), ("^BSESN", "SENSEX"), ("^NSEBANK", "NIFTY Bank"),
   ("^GSPC", "S&P 500"), ("^NDX", "NASDAQ 100")]

/-- `FRIENDLY[k]` property access. -/
def friendly (k : String) : Option String := FRIENDLY.lookup k

/-- update.mjs's `COINGECKO` table. -/
def COINGECKO : List Coin :=
  [{ id := "bitcoin", symbol := "BTC-USD", name := "Bitcoin" },
   { id := "ethereum", symbol := "ETH-USD", name := "Ethereum" }]

/-- The fields of one Yahoo v7 quote object used by `yahooQuoteV7`. -/
structure YahooQ where
  symbol : String
  shortName : Option String
  longName : Option String
  regularMarketPrice : Option ℚ
  preMarketPrice : Option ℚ
  postMarketPrice : Option ℚ
  regularMarketChange : Option ℚ
  regularMarketChangePercent : Option ℚ
  marketState : Option String
deriving DecidableEq, Repr

/-- The record built by `yahooQuoteV7` from a non-empty quote result:
`name: FRIENDLY[q.symbol] || q.shortName || q.longName || q.symbol`,
`price: q.regularMarketPrice ?? q.preMarketPrice ?? q.postMarketPrice ?? null`,
defaults 0 for change fields, `marketState: q.marketState || "REGULAR"`. -/
def yahooQuoteV7 (q : YahooQ) : Quote :=
  { symbol := q.symbol,
    name := jsOrStr (friendly q.symbol)
      (jsOrStr q.shortName (jsOrStr q.longName q.symbol)),
    price := jsCoalesce q.regularMarketPrice
      (jsCoalesce q.preMarketPrice q.postMarketPrice),
    change := (jsCoalesce q.regularMarketChange (some 0)).getD 0,
    changePercent := (jsCoalesce q.regularMarketChangePercent (some 0)).getD 0,
    marketState := some (jsOrStr q.marketState "REGULAR") }

/-- The Yahoo loop of update.mjs's `main`: `yahooQuote` resolves to `null`
when both hosts failed (caught, with a `[skip]` warning), and a resolved
record is pushed only `if (q && q.price != null)`. -/
def yahooItems (yahooResults : List (String × Option YahooQ)) : List Quote :=
  yahooResults.filterMap fun sr =>
    match sr.2 with
    | none => none
    | some q =>
      let quote := yahooQuoteV7 q
      if quote.price ≠ none then some quote else none

/-- The `[skip]` warnings of the Yahoo loop. -/
def yahooWarnings (yahooResults : List (String × Option YahooQ)) :
    List String :=
  yahooResults.filterMap fun sr =>
    match sr.2 with
    | none => some ("[skip] " ++ sr.1)
    | some _ => none

/-- The CoinGecko block of update.mjs's `main`: for each configured coin,
skip when the row is absent; otherwise push with
`change: row.usd_24h_change ?? 0` and
`changePercent: row.usd ? (row.usd_24h_change ?? 0) : 0` — the percent is
forced to 0 whenever `row.usd` is falsy, while `change` keeps the raw
24-hour value.  There is no price guard on this path. -/
def cryptoItems (coins : List Coin) (data : List (String × CgRow)) :
    List Quote :=
  coins.filterMap fun c =>
    match data.lookup c.id with
    | none => none
    | some row =>
      some { symbol := c.symbol,
             name := c.name,
             price := row.usd,
             change := (jsCoalesce row.usd24hChange (some 0)).getD 0,
             changePercent :=
               if jsTruthyNum row.usd
               then (jsCoalesce row.usd24hChange (some 0)).getD 0
               else 0,
             marketState := some "CRYPTO" }

/-- update.mjs's `main`: Yahoo loop, then the CoinGecko block inside
`try/catch` — a thrown CoinGecko fetch is caught and logged as
`[crypto] skipped: ...`.  Returns the payload handed to `writeFile` and
the warning log lines. -/
def main (yahooResults : List (String × Option YahooQ))
    (crypto : Settled (List (String × CgRow))) (now : IstFields) :
    Payload × List String :=
  let out1 := yahooItems yahooResults
  let logs1 := yahooWarnings yahooResults
  let res2 : List Quote × List String :=
    match crypto with
    | .fulfilled data => (cryptoItems COINGECKO data, [])
    | .rejected msg => ([], ["[crypto] skipped: " ++ msg])
  ({ updatedAt := toISTISOString now, items := out1 ++ res2.1 },
   logs1 ++ res2.2)

end UpdateMjs

/-- update.mjs's exit behaviour:
`main().then(() => process.exit(0)).catch(err => { ... writeFile(...)
.then(() => process.exit(0)).catch(() => process.exit(0)) })` — the
process exits 0 whether the primary write (`w1`) or the fallback write
(`w2`) succeed or not. -/
def processExitSuccessUpdateMjs (w1 w2 : Bool) : Bool :=
  if w1 then true else if w2 then true else true

/-- part_000's exit behaviour: `main().catch(async err => { ...
try { await writeFile(...) } catch {} })` — the catch handler swallows
even a failing fallback write, so the process always ends cleanly. -/
def processExitSuccessPart000 (w1 w2 : Bool) : Bool :=
  if w1 then true else if w2 then true else true

/-- part_001's exit behaviour, identical to part_000's. -/
def processExitSuccessPart001 (w1 w2 : Bool) : Bool :=
  if w1 then true else if w2 then true else true

/-- part_002's exit behaviour: `main().catch(async err => { ...
await writeFile(...) })` — the fallback write is NOT guarded, so if the
primary write failed (`w1 = false`, the only way `main` rejects) and the
fallback write also fails (`w2 = false`), the catch handler's promise
rejects unhandled and the process ends with a non-zero status. -/
def processExitSuccessPart002 (w1 w2 : Bool) : Bool :=
  if w1 then true else if w2 then true else false

/-- part_003's exit behaviour, identical to part_000's. -/
def processExitSuccessPart003 (w1 w2 : Bool) : Bool :=
  if w1 then true else if w2 then true else true

/-- One position of a timestamp template: `D` stands for any decimal
digit, every other character stands for itself. -/
def patChar (p c : Char) : Bool :=
  if p = 'D' then c.isDigit else p == c

/-- Does the character list `s` match the template `tmpl` exactly
(position by position, same length)? -/
def matchesTemplateL : List Char → List Char → Bool
  | [], [] => true
  | p :: ps, c :: cs => patChar p c && matchesTemplateL ps cs
  | _, _ => false

/-- The fixed-offset ISO-like timestamp pattern of the specification:
`YYYY-MM-DDThh:mm:ss+ZZ:ZZ`. -/
def isoOffsetTemplate : List Char :=
  ['D', 'D', 'D', 'D', '-', 'D', 'D', '-', 'D', 'D', 'T',
   'D', 'D', ':', 'D', 'D', ':', 'D', 'D', '+', 'D', 'D', ':', 'D', 'D']

/-- Does a string match the fixed-offset timestamp pattern? -/
def matchesIsoOffset (s : String) : Bool :=
  matchesTemplateL isoOffsetTemplate s.toList

/-- Parse a `YYYY-MM-DDThh:mm:ss+05:30` character list back into its IST
civil fields; `none` if it does not have that exact shape. -/
def parseIstIsoL : List Char → Option IstFields
  | [y1, y2, y3, y4, c1, m1, m2, c2, d1, d2, c3,
     h1, h2, c4, mi1, mi2, c5, s1, s2, p1, p2, p3, p4, p5, p6] =>
    if (y1.isDigit && y2.isDigit && y3.isDigit && y4.isDigit &&
        m1.isDigit && m2.isDigit && d1.isDigit && d2.isDigit &&
        h1.isDigit && h2.isDigit && mi1.isDigit && mi2.isDigit &&
        s1.isDigit && s2.isDigit &&
        c1 == '-' && c2 == '-' && c3 == 'T' && c4 == ':' && c5 == ':' &&
        p1 == '+' && p2 == '0' && p3 == '5' && p4 == ':' && p5 == '3' &&
        p6 == '0') then
      some { year := digitVal y1 * 1000 + digitVal y2 * 100 +
                     digitVal y3 * 10 + digitVal y4,
             month := digitVal m1 * 10 + digitVal m2,
             day := digitVal d1 * 10 + digitVal d2,
             hour := digitVal h1 * 10 + digitVal h2,
             minute := digitVal mi1 * 10 + digitVal mi2,
             second := digitVal s1 * 10 + digitVal s2 }
    else none
  | _ => none

/-- `parseIstIsoL` on a `String`. -/
def parseIstIso (s : String) : Option IstFields := parseIstIsoL s.toList

/-! ### Concrete sample inputs used by witnesses and counterexamples -/

/-- A two-day Stooq daily CSV with closes 100 then 110. -/
def csvUp : String :=
  "Date,Open,High,Low,Close,Volume\n2024-01-01,100,101,99,100,5\n2024-01-02,100,111,99,110,5"

/-- A two-day Stooq daily CSV whose previous close is numerically 0. -/
def csvZeroPrev : String :=
  "Date,Open,High,Low,Close,Volume\n2024-01-01,1,1,0,0,5\n2024-01-02,1,6,1,5,5"

/-- A two-day Stooq daily CSV whose closes are Stooq's no-data marker
`n/d`, which parses to no finite number. -/
def csvBadClose : String :=
  "Date,Open,High,Low,Close,Volume\n2024-01-01,1,2,1,n/d,5\n2024-01-02,1,2,1,n/d,5"

/-- A one-day Stooq daily CSV (no previous close available). -/
def csvSingle : String :=
  "Date,Open,High,Low,Close,Volume\n2024-01-02,100,111,99,110,5"

/-- Three Stooq symbols with well-formed responses (used to realise a run
where the Stooq adapter succeeds with exactly 3 records). -/
def threeGoodStooq : List (String × Option String) :=
  [("^spx", some csvUp), ("^ndx", some csvUp), ("gc.f", some csvUp)]

/-- Header line of part_003's batch CSV
(`f = "sd2t2ohlcv"` gives these columns). -/
def batchHeader : List String :=
  Part003.csvHeader
    (splitLinesJs "Symbol,Date,Time,Open,High,Low,Close,Volume")

/-- A batch-CSV data line whose open is numerically 0 and close is 5. -/
def batchLineZeroOpen : String := "XYZ,2024-01-02,12:00:00,0,6,0,5,10"

/-- A Yahoo quote whose symbol is not in `FRIENDLY` and that carries no
short or long name. -/
def yahooNameless : UpdateMjs.YahooQ :=
  { symbol := "xyz", shortName := none, longName := none,
    regularMarketPrice := some 10, preMarketPrice := none,
    postMarketPrice := none, regularMarketChange := some 1,
    regularMarketChangePercent := some 2, marketState := some "REGULAR" }

/-- A CoinGecko response in which bitcoin trades at price 0 with a 24-hour
change of 5 (the zero price is the JavaScript-falsy corner). -/
def cgZeroPrice : List (String × CgRow) :=
  [("bitcoin", { usd := some 0, usd24hChange := some 5 })]

/-- A sample IST civil time. -/
def istSample : IstFields :=
  { year := 2026, month := 10, day := 12, hour := 15, minute := 30, second := 45 }

/-! ## Helper lemmas -/

theorem splitOnChar_no_sep (sep : Char) (B acc : List Char) (hB : sep ∉ B) :
    splitOnChar sep B acc = [acc.reverse ++ B] := by
  induction B generalizing acc with
  | nil => simp [splitOnChar]
  | cons x B' ih =>
    have hx : ¬ (x = sep) := fun h => hB (by subst h; exact List.mem_cons_self _ _)
    simp only [splitOnChar, if_neg hx]
    rw [ih (x :: acc) (fun h => hB (List.mem_cons_of_mem _ h))]
    simp

theorem splitOnChar_boundary (sep : Char) (A B acc : List Char) (hA : sep ∉ A) :
    splitOnChar sep (A ++ sep :: B) acc =
      (acc.reverse ++ A) :: splitOnChar sep B [] := by
  induction A generalizing acc with
  | nil => simp [splitOnChar]
  | cons x A' ih =>
    have hx : ¬ (x = sep) := fun h => hA (by subst h; exact List.mem_cons_self _ _)
    simp only [List.cons_append, splitOnChar, if_neg hx, List.append_eq]
    rw [ih (x :: acc) (fun h => hA (List.mem_cons_of_mem _ h))]
    simp

theorem splitOnCommaSpace_no_sep (B acc : List Char) (hB : ',' ∉ B) :
    splitOnCommaSpace B acc = [acc.reverse ++ B] := by
  induction B generalizing acc with
  | nil => simp [splitOnCommaSpace]
  | cons x B' ih =>
    have hx : ¬ (x = ',') := fun h => hB (by subst h; exact List.mem_cons_self _ _)
    cases B' with
    | nil => simp [splitOnCommaSpace]
    | cons y B'' =>
      simp only [splitOnCommaSpace]
      rw [if_neg (by simp [hx])]
      rw [ih (x :: acc) (fun h => hB (List.mem_cons_of_mem _ h))]
      simp

theorem splitOnCommaSpace_boundary (A B acc : List Char) (hA : ',' ∉ A) :
    splitOnCommaSpace (A ++ ',' :: ' ' :: B) acc =
      (acc.reverse ++ A) :: splitOnCommaSpace B [] := by
  induction A generalizing acc with
  | nil => simp [splitOnCommaSpace]
  | cons x A' ih =>
    have hx : ¬ (x = ',') := fun h => hA (by subst h; exact List.mem_cons_self _ _)
    cases A' with
    | nil =>
      simp only [List.nil_append, List.cons_append, splitOnCommaSpace]
      rw [if_neg (by simp [hx])]
      simp [splitOnCommaSpace]
    | cons y A'' =>
      simp only [List.cons_append, splitOnCommaSpace, List.append_eq]
      rw [if_neg (by simp [hx])]
      have hrec := ih (x :: acc) (fun h => hA (List.mem_cons_of_mem _ h))
      rw [List.cons_append] at hrec
      rw [hrec]
      simp

theorem digitChar_toNat (n : Nat) : (digitChar n).toNat = 48 + n % 10 := by
  have h : n % 10 < 10 := Nat.mod_lt _ (by norm_num)
  unfold digitChar
  set m := n % 10 with hm
  interval_cases m <;> decide

theorem digitChar_isDigit (n : Nat) : (digitChar n).isDigit = true := by
  have h : n % 10 < 10 := Nat.mod_lt _ (by norm_num)
  unfold digitChar
  set m := n % 10 with hm
  interval_cases m <;> decide

theorem digitChar_ne {c : Char} (n : Nat) (hc : c.toNat < 48 ∨ 57 < c.toNat) :
    ¬ (c = digitChar n) := by
  intro h
  have h1 := digitChar_toNat n
  have h2 : n % 10 < 10 := Nat.mod_lt _ (by norm_num)
  rw [← h] at h1
  omega

theorem digitVal_digitChar (n : Nat) : digitVal (digitChar n) = n % 10 := by
  unfold digitVal
  rw [digitChar_toNat]
  omega

theorem not_mem_pad2L {c : Char} (n : Nat) (hc : c.toNat < 48 ∨ 57 < c.toNat) :
    c ∉ pad2L n := by
  intro h
  simp only [pad2L, List.mem_cons, List.not_mem_nil, or_false] at h
  rcases h with h | h <;> exact digitChar_ne _ hc h

theorem not_mem_pad4L {c : Char} (n : Nat) (hc : c.toNat < 48 ∨ 57 < c.toNat) :
    c ∉ pad4L n := by
  intro h
  simp only [pad4L, List.mem_cons, List.not_mem_nil, or_false] at h
  rcases h with h | h | h | h <;> exact digitChar_ne _ hc h

theorem comma_not_mem_intlDate (d : IstFields) :
    (',' : Char) ∉ intlDateEnGB d := by
  intro h
  simp only [intlDateEnGB, List.mem_append, List.mem_singleton] at h
  rcases h with (((h | h) | h) | h) | h
  · exact not_mem_pad2L _ (by decide) h
  · exact absurd h (by decide)
  · exact not_mem_pad2L _ (by decide) h
  · exact absurd h (by decide)
  · exact not_mem_pad4L _ (by decide) h

theorem comma_not_mem_intlTime (d : IstFields) :
    (',' : Char) ∉ intlTime24 d := by
  intro h
  simp only [intlTime24, List.mem_append, List.mem_singleton] at h
  rcases h with (((h | h) | h) | h) | h
  · exact not_mem_pad2L _ (by decide) h
  · exact absurd h (by decide)
  · exact not_mem_pad2L _ (by decide) h
  · exact absurd h (by decide)
  · exact not_mem_pad2L _ (by decide) h

/-- Explicit form of the common `toISTISOString`: year, month, day
reassembled in ISO order, the time part carried over verbatim, and the
fixed `+05:30` suffix appended. -/
theorem toISTISOString_eq (d : IstFields) :
    toISTISOString d =
      String.mk (pad4L d.year ++ '-' :: (pad2L d.month ++ '-' ::
        (pad2L d.day ++ 'T' :: (intlTime24 d ++
          ['+', '0', '5', ':', '3', '0'])))) := by
  have h1 : splitOnCommaSpace (intlFormatEnGB24 d) [] =
      [intlDateEnGB d, intlTime24 d] := by
    have e : intlFormatEnGB24 d = intlDateEnGB d ++ ',' :: ' ' :: intlTime24 d := by
      simp [intlFormatEnGB24, List.append_assoc]
    rw [e, splitOnCommaSpace_boundary _ _ _ (comma_not_mem_intlDate d),
        splitOnCommaSpace_no_sep _ _ (comma_not_mem_intlTime d)]
    simp
  have h2 : splitOnChar '/' (intlDateEnGB d) [] =
      [pad2L d.day, pad2L d.month, pad4L d.year] := by
    have e : intlDateEnGB d =
        pad2L d.day ++ '/' :: (pad2L d.month ++ '/' :: pad4L d.year) := by
      simp [intlDateEnGB, List.append_assoc]
    rw [e, splitOnChar_boundary _ _ _ _ (not_mem_pad2L _ (by decide)),
        splitOnChar_boundary _ _ _ _ (not_mem_pad2L _ (by decide)),
        splitOnChar_no_sep _ _ _ (not_mem_pad4L _ (by decide))]
    simp
  simp only [toISTISOString, h1, List.getD_cons_zero, List.getD_cons_succ, h2]
  simp [List.append_assoc]

/-- The common `toISTISOString` always matches the fixed-offset pattern
`YYYY-MM-DDThh:mm:ss+ZZ:ZZ`. -/
theorem toISTISOString_matches_iso (d : IstFields) :
    matchesIsoOffset (toISTISOString d) = true := by
  rw [toISTISOString_eq]
  show matchesTemplateL isoOffsetTemplate
    (pad4L d.year ++ '-' :: (pad2L d.month ++ '-' ::
      (pad2L d.day ++ 'T' :: (intlTime24 d ++
        ['+', '0', '5', ':', '3', '0'])))) = true
  simp [pad4L, pad2L, intlTime24, isoOffsetTemplate, matchesTemplateL,
    patChar, digitChar_isDigit]

/-- The common `toISTISOString` is parseable back to the civil fields it
was rendered from (for in-range Intl output). -/
theorem parseIstIso_toISTISOString (d : IstFields)
    (hy : d.year ≤ 9999) (hmo : d.month ≤ 12) (hda : d.day ≤ 31)
    (hho : d.hour ≤ 23) (hmi : d.minute ≤ 59) (hse : d.second ≤ 59) :
    parseIstIso (toISTISOString d) = some d := by
  obtain ⟨y, mo, da, ho, mi, se⟩ := d
  simp only at hy hmo hda hho hmi hse
  rw [toISTISOString_eq]
  show parseIstIsoL
    (pad4L y ++ '-' :: (pad2L mo ++ '-' :: (pad2L da ++ 'T' ::
      (intlTime24 ⟨y, mo, da, ho, mi, se⟩ ++
        ['+', '0', '5', ':', '3', '0'])))) = some ⟨y, mo, da, ho, mi, se⟩
  simp only [pad4L, pad2L, intlTime24, List.cons_append, List.nil_append,
    List.append_assoc]
  simp only [parseIstIsoL, digitChar_isDigit, digitVal_digitChar]
  norm_num [IstFields.mk.injEq]
  refine ⟨?_, ?_, ?_, ?_, ?_, ?_⟩ <;> omega

/-- If every Stooq request in the batch failed, part_001's sequential
adapter loop emits no record. -/
theorem fetchAllStooq_all_failed (inputs : List (String × Option String))
    (h : ∀ p ∈ inputs, p.2 = (none : Option String)) :
    (Part001.fetchAllStooq inputs).1 = [] := by
  induction inputs with
  | nil => rfl
  | cons hd tl ih =>
    obtain ⟨s, resp⟩ := hd
    have hresp : resp = none := h (s, resp) (List.mem_cons_self _ _)
    subst hresp
    simp only [Part001.fetchAllStooq, Part001.fetchStooqDaily]
    exact ih (fun p hp => h p (List.mem_cons_of_mem _ hp))

/-- If every Yahoo quote failed on both hosts, update.mjs's Yahoo loop
emits no record. -/
theorem yahooItems_all_failed
    (yr : List (String × Option UpdateMjs.YahooQ))
    (h : ∀ p ∈ yr, p.2 = (none : Option UpdateMjs.YahooQ)) :
    UpdateMjs.yahooItems yr = [] := by
  rw [UpdateMjs.yahooItems, List.filterMap_eq_nil_iff]
  intro sr hsr
  rw [h sr hsr]

/-! ## Claim theorems -/

/-- C1: the spec demands that every record reaching `items` has a
non-null, finite price and that a record whose price cannot be resolved
is dropped.  part_002 violates this: its `fetchStooqDaily` has no
`close == null` throw and its `fetchAll` pushes on the always-true guard
`if (row)`, so a daily CSV whose latest close is Stooq's `n/d` no-data
marker produces a record with null price that reaches `items`.  This
theorem evaluates part_002 at that failing input. -/
theorem claim_c1_part002_emits_null_price :
    Part002.fetchAll [("^spx", some csvBadClose)] =
      ([{ symbol := "^spx", name := "S&P 500", price := none, change := 0,
          changePercent := 0, marketState := none }], []) ∧
    ((Part002.fetchAll [("^spx", some csvBadClose)]).1.all
      fun q => q.price.isSome) = false := by
  with_unfolding_all decide

/-- C2 (counterexample): the top-level keys of every written payload are
`updatedAt` and `items` — not `generatedAt` and `items` as the claim
states. -/
theorem claim_c2_counterexample :
    Json.topKeys (serializePayload
      (Part001.main [] (.rejected "CoinGecko 500") istSample).1) =
        ["updatedAt", "items"] ∧
    Json.topKeys (serializePayload
      (Part001.main [] (.rejected "CoinGecko 500") istSample).1) ≠
        ["generatedAt", "items"] := by
  constructor
  · rfl
  · decide

/-- C2 (amended): every payload handed to `writeFile` — on part_001's
main path for arbitrary adapter outcomes, and on the catch path — is a
JSON object with exactly the two keys `updatedAt` (the timestamp) and
`items`, and `items` is always an array (the serialised record list,
empty on the catch path), even under total upstream failure. -/
theorem claim_c2_payload_shape :
    (∀ (stooqInputs : List (String × Option String))
       (cg : Settled (List Quote)) (now : IstFields),
      Json.topKeys (serializePayload (Part001.main stooqInputs cg now).1) =
        ["updatedAt", "items"] ∧
      (serializePayload (Part001.main stooqInputs cg now).1).lookupKey
          "items" =
        some (.arr (((Part001.main stooqInputs cg now).1.items).map
          serializeQuote))) ∧
    (∀ now : IstFields,
      Json.topKeys (serializePayload (catchPayload now)) =
        ["updatedAt", "items"] ∧
      (serializePayload (catchPayload now)).lookupKey "items" =
        some (.arr [])) := by
  constructor
  · intro stooqInputs cg now
    exact ⟨rfl, rfl⟩
  · intro now
    exact ⟨rfl, rfl⟩

/-- C3: under the two-point strategy of `fetchStooqDaily` (part_001), a
daily history whose last and second-to-last closes parse to `c` and `p`
(`p ≠ 0`) derives price `c`, change `c - p` and changePercent
`(c - p) / p * 100`; when no previous close is parseable (fewer than two
parseable points), change and changePercent are both 0. -/
theorem claim_c3_two_point_strategy :
    (∀ (symbol text : String) (c p : ℚ),
      2 ≤ (stooqLines text).length →
      2 ≤ (stooqRows text).length →
      stooqClose text = some c →
      stooqPrevClose text = some p →
      p ≠ 0 →
      Part001.fetchStooqDaily symbol (some text) =
        .ok { symbol := jsToLower symbol,
              name := jsOrStr (Part001.friendly (jsToLower symbol))
                (jsToUpper symbol),
              price := some c,
              change := c - p,
              changePercent := (c - p) / p * 100,
              marketState := some "DAILY" }) ∧
    (∀ (symbol text : String) (c : ℚ),
      2 ≤ (stooqLines text).length →
      1 ≤ (stooqRows text).length →
      stooqClose text = some c →
      stooqPrevClose text = none →
      Part001.fetchStooqDaily symbol (some text) =
        .ok { symbol := jsToLower symbol,
              name := jsOrStr (Part001.friendly (jsToLower symbol))
                (jsToUpper symbol),
              price := some c,
              change := 0,
              changePercent := 0,
              marketState := some "DAILY" }) := by
  constructor
  · intro symbol text c p hl hr hc hp hp0
    have h1 : ¬ ((stooqLines text).length < 2) := by omega
    have h2 : ¬ ((stooqRows text).length = 0) := by omega
    simp only [Part001.fetchStooqDaily, if_neg h1, if_neg h2, hc, hp]
    simp [hp0]
  · intro symbol text c hl hr hc hp
    have h1 : ¬ ((stooqLines text).length < 2) := by omega
    have h2 : ¬ ((stooqRows text).length = 0) := by omega
    simp only [Part001.fetchStooqDaily, if_neg h1, if_neg h2, hc, hp]

/-- C3 (witness): the spec's own example — previous close 100, last
close 110 — gives change 10 and changePercent 10; and a one-row history
gives change 0 and changePercent 0. -/
theorem claim_c3_witness :
    Part001.fetchStooqDaily "^spx" (some csvUp) =
      .ok { symbol := "^spx", name := "S&P 500", price := some 110,
            change := 10, changePercent := 10,
            marketState := some "DAILY" } ∧
    Part001.fetchStooqDaily "^spx" (some csvSingle) =
      .ok { symbol := "^spx", name := "S&P 500", price := some 110,
            change := 0, changePercent := 0,
            marketState := some "DAILY" } := by
  constructor
  · have h := claim_c3_two_point_strategy.1 "^spx" csvUp 110 100
      (by with_unfolding_all decide) (by with_unfolding_all decide)
      (by with_unfolding_all decide) (by with_unfolding_all decide)
      (by norm_num)
    rw [h]
    with_unfolding_all rfl
  · have h := claim_c3_two_point_strategy.2 "^spx" csvSingle 110
      (by with_unfolding_all decide) (by with_unfolding_all decide)
      (by with_unfolding_all decide) (by with_unfolding_all decide)
    rw [h]
    with_unfolding_all rfl

/-- C4: the division computing changePercent is guarded.  In part_001's
`fetchStooqDaily`, whenever the previous close is absent or parses to 0,
the derived record exists and its changePercent is exactly 0.  In
part_003's batch-CSV per-line derivation, whenever the open (the
baseline) is absent or 0 while the close parses, the record exists with
change 0 and changePercent 0. -/
theorem claim_c4_zero_reference_guard :
    (∀ (symbol text : String) (c : ℚ),
      2 ≤ (stooqLines text).length →
      1 ≤ (stooqRows text).length →
      stooqClose text = some c →
      (stooqPrevClose text = none ∨ stooqPrevClose text = some 0) →
      ∃ q : Quote, Part001.fetchStooqDaily symbol (some text) = .ok q ∧
        q.changePercent = 0) ∧
    (∀ (header : List String) (line : String) (c : ℚ),
      Part003.csvClose header line = some c →
      (Part003.csvOpen header line = none ∨
        Part003.csvOpen header line = some 0) →
      ∃ q : Quote, Part003.csvLineQuote header line = some q ∧
        q.change = 0 ∧ q.changePercent = 0) := by
  constructor
  · intro symbol text c hl hr hc hp
    have h1 : ¬ ((stooqLines text).length < 2) := by omega
    have h2 : ¬ ((stooqRows text).length = 0) := by omega
    rcases hp with hp | hp
    · simp only [Part001.fetchStooqDaily, if_neg h1, if_neg h2, hc, hp]
      exact ⟨_, rfl, rfl⟩
    · simp only [Part001.fetchStooqDaily, if_neg h1, if_neg h2, hc, hp]
      refine ⟨_, rfl, ?_⟩
      simp
  · intro header line c hc hop
    rcases hop with hop | hop
    · simp only [Part003.csvLineQuote, hc, hop]
      exact ⟨_, rfl, rfl, rfl⟩
    · simp only [Part003.csvLineQuote, hc, hop]
      refine ⟨_, rfl, ?_, ?_⟩ <;> simp

/-- C4 (witness): a two-day history with previous close exactly 0 gives
changePercent 0, and a batch-CSV line with open 0 and close 5 gives
change 0 and changePercent 0 — never NaN or infinity (the division is
never taken). -/
theorem claim_c4_witness :
    (∃ q : Quote,
      Part001.fetchStooqDaily "^spx" (some csvZeroPrev) = .ok q ∧
        q.changePercent = 0) ∧
    (∃ q : Quote,
      Part003.csvLineQuote batchHeader batchLineZeroOpen = some q ∧
        q.change = 0 ∧ q.changePercent = 0) :=
  ⟨claim_c4_zero_reference_guard.1 "^spx" csvZeroPrev 5
    (by with_unfolding_all decide) (by with_unfolding_all decide)
    (by with_unfolding_all decide)
    (Or.inr (by with_unfolding_all decide)),
   claim_c4_zero_reference_guard.2 batchHeader batchLineZeroOpen 5
    (by with_unfolding_all decide)
    (Or.inr (by with_unfolding_all decide))⟩

/-- C5 (counterexample): a part_001 run in which the CoinGecko adapter
rejects while the Stooq adapter succeeds with exactly 3 records does put
exactly those 3 records in `items`, but `main` logs NO warning at all
for the failed adapter (the rejected settled result is silently replaced
by `[]`), contradicting the claim that a warning is logged. -/
theorem claim_c5_counterexample :
    ((Part001.main threeGoodStooq
        (.rejected "CoinGecko 500") istSample).1.items).length = 3 ∧
    (Part001.main threeGoodStooq
        (.rejected "CoinGecko 500") istSample).2 = [] := by
  with_unfolding_all decide

/-- C5 (amended): a whole-adapter failure is isolated — the failing
adapter contributes nothing, the other adapter's records appear exactly,
and the run still reports success.  A warning for the failed adapter is
logged only in the update.mjs variant (whose crypto block catches and
logs); the allSettled variants part_001 and part_003 silently drop a
rejected adapter without logging. -/
theorem claim_c5_adapter_isolation :
    (∀ (stooqInputs : List (String × Option String)) (msg : String)
       (now : IstFields),
      (Part001.main stooqInputs (.rejected msg) now).1.items =
        (Part001.fetchAllStooq stooqInputs).1 ∧
      (Part001.main stooqInputs (.rejected msg) now).2 =
        (Part001.fetchAllStooq stooqInputs).2) ∧
    (∀ (cgItems : List Quote) (msg : String) (now : IstFields),
      (Part003.main (.rejected msg) (.fulfilled cgItems) now).items =
        cgItems) ∧
    (∀ (yahooResults : List (String × Option UpdateMjs.YahooQ))
       (msg : String) (now : IstFields),
      (UpdateMjs.main yahooResults (.rejected msg) now).1.items =
        UpdateMjs.yahooItems yahooResults ∧
      ("[crypto] skipped: " ++ msg) ∈
        (UpdateMjs.main yahooResults (.rejected msg) now).2) ∧
    (∀ w1 w2 : Bool, processExitSuccessPart001 w1 w2 = true) := by
  refine ⟨?_, ?_, ?_, ?_⟩
  · intro stooqInputs msg now
    exact ⟨by simp [Part001.main, Settled.valueOrNil], rfl⟩
  · intro cgItems msg now
    simp [Part003.main, Settled.valueOrNil]
  · intro yahooResults msg now
    refine ⟨by simp [UpdateMjs.main], ?_⟩
    simp [UpdateMjs.main]
  · intro w1 w2
    cases w1 <;> cases w2 <;> rfl

/-- C6: when every adapter fails (every Stooq symbol's request failed and
CoinGecko rejected), the payload handed to `writeFile` still has
`items = []`, a non-null `updatedAt` timestamp, and the full two-key JSON
shape; and the job's exit model reports success.  The same holds for the
update.mjs variant with every Yahoo symbol failed and crypto rejected. -/
theorem claim_c6_total_failure_empty_payload :
    (∀ (stooqInputs : List (String × Option String)) (msg : String)
       (now : IstFields),
      (∀ p ∈ stooqInputs, p.2 = (none : Option String)) →
      (Part001.main stooqInputs (.rejected msg) now).1.items = [] ∧
      (Part001.main stooqInputs (.rejected msg) now).1.updatedAt =
        toISTISOString now ∧
      Json.topKeys (serializePayload
        (Part001.main stooqInputs (.rejected msg) now).1) =
          ["updatedAt", "items"] ∧
      (∀ w1 w2 : Bool, processExitSuccessPart001 w1 w2 = true)) ∧
    (∀ (yahooResults : List (String × Option UpdateMjs.YahooQ))
       (msg : String) (now : IstFields),
      (∀ p ∈ yahooResults, p.2 = (none : Option UpdateMjs.YahooQ)) →
      (UpdateMjs.main yahooResults (.rejected msg) now).1.items = [] ∧
      (∀ w1 w2 : Bool, processExitSuccessUpdateMjs w1 w2 = true)) := by
  constructor
  · intro stooqInputs msg now h
    refine ⟨?_, rfl, rfl, ?_⟩
    · show (Part001.fetchAllStooq stooqInputs).1 ++
        Settled.valueOrNil (.rejected msg) = []
      rw [fetchAllStooq_all_failed stooqInputs h]
      rfl
    · intro w1 w2
      cases w1 <;> cases w2 <;> rfl
  · intro yahooResults msg now h
    refine ⟨?_, ?_⟩
    · show UpdateMjs.yahooItems yahooResults ++ [] = []
      rw [yahooItems_all_failed yahooResults h]
      rfl
    · intro w1 w2
      cases w1 <;> cases w2 <;> rfl

/-- C6 (witness): one failed Stooq symbol plus a rejected CoinGecko call
yields the empty-items payload and a successful run. -/
theorem claim_c6_witness :
    (Part001.main [("^spx", none)] (.rejected "CoinGecko 500")
        istSample).1.items = [] ∧
    (Part001.main [("^spx", none)] (.rejected "CoinGecko 500")
        istSample).1.updatedAt = toISTISOString istSample ∧
    Json.topKeys (serializePayload
      (Part001.main [("^spx", none)] (.rejected "CoinGecko 500")
        istSample).1) = ["updatedAt", "items"] ∧
    (∀ w1 w2 : Bool, processExitSuccessPart001 w1 w2 = true) :=
  (claim_c6_total_failure_empty_payload.1 [("^spx", none)]
    "CoinGecko 500" istSample (by simp))

/-- C7: the exit models of all five variants report success in every case
except one — a non-success outcome implies that the primary payload write
failed AND the best-effort fallback write of the empty-shell payload also
failed (and only part_002 can actually end non-successfully even then). -/
theorem claim_c7_exit_success_policy :
    (∀ w1 w2 : Bool,
      processExitSuccessUpdateMjs w1 w2 = false → w1 = false ∧ w2 = false) ∧
    (∀ w1 w2 : Bool,
      processExitSuccessPart000 w1 w2 = false → w1 = false ∧ w2 = false) ∧
    (∀ w1 w2 : Bool,
      processExitSuccessPart001 w1 w2 = false → w1 = false ∧ w2 = false) ∧
    (∀ w1 w2 : Bool,
      processExitSuccessPart002 w1 w2 = false → w1 = false ∧ w2 = false) ∧
    (∀ w1 w2 : Bool,
      processExitSuccessPart003 w1 w2 = false → w1 = false ∧ w2 = false) := by
  refine ⟨?_, ?_, ?_, ?_, ?_⟩ <;> intro w1 w2 <;> cases w1 <;> cases w2 <;>
    simp [processExitSuccessUpdateMjs, processExitSuccessPart000,
      processExitSuccessPart001, processExitSuccessPart002,
      processExitSuccessPart003]

/-- C7 (witness): part_002 with both writes failing is a non-success
outcome, and the theorem traces it back to the double persistence
failure. -/
theorem claim_c7_witness :
    processExitSuccessPart002 false false = false ∧
    (false = false ∧ false = false) :=
  ⟨rfl, claim_c7_exit_success_policy.2.2.2.1 false false rfl⟩

/-- C8 (counterexample): part_002's payload timestamp does NOT match the
fixed-offset pattern `YYYY-MM-DDThh:mm:ss+ZZ:ZZ` — its `toISTISOString`
returns a day-first `"dd-mm-yyyy, hh:mm:ss am/pm"` string with no offset
suffix, so the claim fails for part_002 runs. -/
theorem claim_c8_counterexample :
    matchesIsoOffset ((Part002.main [] istSample).1.updatedAt) = false ∧
    (Part002.main [] istSample).1.updatedAt = "12-10-2026, 03:30:45 pm" := by
  with_unfolding_all decide

/-- C8 (amended): in the variants that share the common `toISTISOString`
(update.mjs, part_000, part_001, part_003), the payload's `updatedAt` is
rendered in the fixed IST offset, matches `YYYY-MM-DDThh:mm:ss+ZZ:ZZ`,
and parses back to exactly the civil fields it was rendered from; the
part_002 variant instead emits a day-first local string with no offset. -/
theorem claim_c8_timestamp_format :
    ∀ (d : IstFields), d.year ≤ 9999 → d.month ≤ 12 → d.day ≤ 31 →
      d.hour ≤ 23 → d.minute ≤ 59 → d.second ≤ 59 →
    ∀ (stooqInputs : List (String × Option String))
      (cg : Settled (List Quote)),
      matchesIsoOffset ((Part001.main stooqInputs cg d).1.updatedAt) =
        true ∧
      parseIstIso ((Part001.main stooqInputs cg d).1.updatedAt) = some d := by
  intro d h1 h2 h3 h4 h5 h6 stooqInputs cg
  have he : (Part001.main stooqInputs cg d).1.updatedAt =
      toISTISOString d := rfl
  rw [he]
  exact ⟨toISTISOString_matches_iso d,
    parseIstIso_toISTISOString d h1 h2 h3 h4 h5 h6⟩

/-- C8 (witness): a concrete part_001 run stamped at the sample IST time
matches the pattern and parses back. -/
theorem claim_c8_witness :
    matchesIsoOffset ((Part001.main [] (.rejected "CoinGecko 500")
        istSample).1.updatedAt) = true ∧
    parseIstIso ((Part001.main [] (.rejected "CoinGecko 500")
        istSample).1.updatedAt) = some istSample :=
  claim_c8_timestamp_format istSample (by decide) (by decide) (by decide)
    (by decide) (by decide) (by decide) [] (.rejected "CoinGecko 500")

/-- C9 (counterexample): in update.mjs's `yahooQuoteV7`, a quote whose
symbol has no lookup-table entry and that carries no source name resolves
to the symbol AS EMITTED, not uppercased — `"xyz"`, not `"XYZ"` — so the
claimed final fallback "the symbol itself uppercased" is wrong for the
Yahoo adapter. -/
theorem claim_c9_counterexample :
    (UpdateMjs.yahooQuoteV7 yahooNameless).name = "xyz" ∧
    jsToUpper yahooNameless.symbol = "XYZ" ∧
    (UpdateMjs.yahooQuoteV7 yahooNameless).name ≠
      jsToUpper yahooNameless.symbol := by
  with_unfolding_all decide

/-- C9 (amended): display-name precedence as implemented.  In
`yahooQuoteV7`: truthy lookup-table entry, else truthy `shortName`, else
truthy `longName`, else the symbol as emitted (NOT uppercased).  In
part_001's `fetchStooqDaily` there is no source-name tier: truthy
lookup-table entry for the lower-cased symbol, else the symbol
uppercased. -/
theorem claim_c9_display_name_precedence :
    (∀ q : UpdateMjs.YahooQ,
      (∀ nm, jsTruthyStr (UpdateMjs.friendly q.symbol) = some nm →
        (UpdateMjs.yahooQuoteV7 q).name = nm) ∧
      (jsTruthyStr (UpdateMjs.friendly q.symbol) = none →
        ∀ s, jsTruthyStr q.shortName = some s →
          (UpdateMjs.yahooQuoteV7 q).name = s) ∧
      (jsTruthyStr (UpdateMjs.friendly q.symbol) = none →
        jsTruthyStr q.shortName = none →
        ∀ s, jsTruthyStr q.longName = some s →
          (UpdateMjs.yahooQuoteV7 q).name = s) ∧
      (jsTruthyStr (UpdateMjs.friendly q.symbol) = none →
        jsTruthyStr q.shortName = none → jsTruthyStr q.longName = none →
        (UpdateMjs.yahooQuoteV7 q).name = q.symbol)) ∧
    (∀ (symbol text : String) (q : Quote),
      Part001.fetchStooqDaily symbol (some text) = .ok q →
      ((∃ nm, jsTruthyStr (Part001.friendly (jsToLower symbol)) = some nm ∧
          q.name = nm) ∨
       (jsTruthyStr (Part001.friendly (jsToLower symbol)) = none ∧
          q.name = jsToUpper symbol))) := by
  constructor
  · intro q
    refine ⟨?_, ?_, ?_, ?_⟩
    · intro nm h
      simp [UpdateMjs.yahooQuoteV7, jsOrStr, h]
    · intro h s hs
      simp [UpdateMjs.yahooQuoteV7, jsOrStr, h, hs]
    · intro h hs s hl
      simp [UpdateMjs.yahooQuoteV7, jsOrStr, h, hs, hl]
    · intro h hs hl
      simp [UpdateMjs.yahooQuoteV7, jsOrStr, h, hs, hl]
  · intro symbol text q hq
    simp only [Part001.fetchStooqDaily] at hq
    split at hq
    · exact absurd hq (by simp)
    · split at hq
      · exact absurd hq (by simp)
      · split at hq
        · exact absurd hq (by simp)
        · rw [Except.ok.injEq] at hq
          subst hq
          cases hf : jsTruthyStr (Part001.friendly (jsToLower symbol)) with
          | none => exact Or.inr ⟨rfl, by simp [jsOrStr, hf]⟩
          | some nm => exact Or.inl ⟨nm, rfl, by simp [jsOrStr, hf]⟩

/-- C9 (witness): a `^NSEI` quote resolves to the table entry
"NIFTY 50" even though Yahoo provides its own short name; a quote with no
table entry but a short name resolves to the short name; and a Stooq
record for `aapl.us` resolves to the table entry "Apple". -/
theorem claim_c9_witness :
    (UpdateMjs.yahooQuoteV7
      { symbol := "^NSEI", shortName := some "Nifty 50 idx",
        longName := none, regularMarketPrice := some 25000,
        preMarketPrice := none, postMarketPrice := none,
        regularMarketChange := some 10,
        regularMarketChangePercent := some 1,
        marketState := some "REGULAR" }).name = "NIFTY 50" ∧
    (UpdateMjs.yahooQuoteV7
      { symbol := "AAPL", shortName := some "Apple Inc.",
        longName := none, regularMarketPrice := some 200,
        preMarketPrice := none, postMarketPrice := none,
        regularMarketChange := some 1,
        regularMarketChangePercent := some 1,
        marketState := some "REGULAR" }).name = "Apple Inc." ∧
    ((∃ nm, jsTruthyStr (Part001.friendly (jsToLower "aapl.us")) =
        some nm ∧
      ({ symbol := "aapl.us", name := "Apple", price := some 110,
         change := 10, changePercent := 10,
         marketState := some "DAILY" } : Quote).name = nm) ∨
     (jsTruthyStr (Part001.friendly (jsToLower "aapl.us")) = none ∧
      ({ symbol := "aapl.us", name := "Apple", price := some 110,
         change := 10, changePercent := 10,
         marketState := some "DAILY" } : Quote).name =
        jsToUpper "aapl.us")) :=
  ⟨(claim_c9_display_name_precedence.1 _).1 "NIFTY 50" (by decide),
   (claim_c9_display_name_precedence.1 _).2.1 (by decide) "Apple Inc."
     (by decide),
   claim_c9_display_name_precedence.2 "aapl.us" csvUp _
     (by with_unfolding_all rfl)⟩

/-- C10 (counterexample): in update.mjs's CoinGecko block, a bitcoin row
with price 0 and 24-hour change 5 is emitted with `change = 5` but
`changePercent = 0` (the `row.usd ? ... : 0` truthiness guard), so
`change` and `changePercent` are NOT always the same value there. -/
theorem claim_c10_counterexample :
    UpdateMjs.cryptoItems UpdateMjs.COINGECKO cgZeroPrice =
      [{ symbol := "BTC-USD", name := "Bitcoin", price := some 0,
         change := 5, changePercent := 0, marketState := some "CRYPTO" }] ∧
    ((UpdateMjs.cryptoItems UpdateMjs.COINGECKO cgZeroPrice).all
      fun q => q.change == q.changePercent) = false := by
  with_unfolding_all decide

/-- C10 (amended): in part_001's and part_003's `fetchCoinGecko` every
emitted record stores the upstream 24-hour percentage change in both
`change` and `changePercent` (so they are always equal, and `change` is
not an absolute price difference); in update.mjs's CoinGecko block the
two fields coincide exactly when the price is truthy (present and
non-zero), otherwise `changePercent` is forced to 0 while `change` keeps
the 24-hour value. -/
theorem claim_c10_crypto_change_fields :
    (∀ (coins : List Coin) (j : List (String × CgRow)),
      ((Part001.fetchCoinGecko coins j).all
        fun q => q.change == q.changePercent) = true) ∧
    (∀ (coins : List Coin) (j : List (String × CgRow)),
      ((Part003.fetchCoinGecko coins j).all
        fun q => q.change == q.changePercent) = true) ∧
    (∀ (coins : List Coin) (data : List (String × CgRow)),
      ((UpdateMjs.cryptoItems coins data).all fun q =>
        !jsTruthyNum q.price || (q.change == q.changePercent)) = true) := by
  refine ⟨?_, ?_, ?_⟩
  · intro coins j
    rw [List.all_eq_true]
    intro q hq
    simp only [Part001.fetchCoinGecko] at hq
    rw [List.mem_filterMap] at hq
    obtain ⟨c, _, hfc⟩ := hq
    cases hl : List.lookup c.id j <;> rw [hl] at hfc
    · simp at hfc
    · rw [Option.some.injEq] at hfc
      subst hfc
      simp
  · intro coins j
    rw [List.all_eq_true]
    intro q hq
    simp only [Part003.fetchCoinGecko] at hq
    rw [List.mem_filterMap] at hq
    obtain ⟨c, _, hfc⟩ := hq
    cases hl : List.lookup c.id j <;> rw [hl] at hfc
    · simp at hfc
    · rw [Option.some.injEq] at hfc
      subst hfc
      simp
  · intro coins data
    rw [List.all_eq_true]
    intro q hq
    simp only [UpdateMjs.cryptoItems] at hq
    rw [List.mem_filterMap] at hq
    obtain ⟨c, _, hfc⟩ := hq
    cases hl : List.lookup c.id data with
    | none => rw [hl] at hfc; simp at hfc
    | some row =>
      rw [hl] at hfc
      rw [Option.some.injEq] at hfc
      subst hfc
      cases ht : jsTruthyNum row.usd <;> simp [ht]

end MfvMarket
